import Mathlib

/-!
Shallow embedding of `src/content/sync/sync-job.ts` from makinteract/notero-notes.

The sync job orchestrates per-item synchronization of Zotero items to Notion
pages.  External collaborators (the Notion SDK client, the Zotero item store,
the preference store, the progress window, the property builder and the URL
converter) are modelled as an explicit environment `Env`; every observable
call to one of them is recorded as an `Event` in a trace, and fallible code
returns `Except Err`.  Each function below is translated directly from the
correspondingly named TypeScript function or method.
-/

/-- A Notion API error code, as distinguished by `isNotionErrorWithCode`
(`notion-utils`): the sync job only ever tests for `APIErrorCode.ObjectNotFound`;
every other failure is carried opaquely as a string. -/
inductive NotionErr where
  | objectNotFound : NotionErr
  | otherCode (msg : String) : NotionErr
deriving DecidableEq, Repr

/-- A Notion page create/update response: `isFullPage` distinguishes a full
page (carrying a canonical `url`) from the restricted shape returned when the
integration lacks the read-content capability. -/
inductive PageResponse where
  | fullPage (url : String) : PageResponse
  | restricted : PageResponse
deriving DecidableEq, Repr

/-- Errors raised inside the sync job:
`notionErr` wraps a failed Notion API call, `strError` a plain
`throw new Error(msg)`, and `itemSync` is the `ItemSyncError` wrapper from
`sync-job.ts` carrying the original cause and the id of the item being
iterated. -/
inductive Err where
  | notionErr (code : NotionErr) : Err
  | strError (msg : String) : Err
  | itemSync (cause : Err) (itemID : Nat) : Err
deriving DecidableEq, Repr

deriving instance DecidableEq for Except

/-- Opaque token standing for the Notion page-property set produced by the
external `buildProperties` collaborator. -/
abbrev Props := Nat

/-- A Zotero item as seen by the sync job: its id, whether `item.isNote()`
holds, its `item.parentID`, the note ids returned by `item.getNotes(false)`,
and the Notion page id stored by `getNotionPageID` (item-data store). -/
structure Item where
  id : Nat
  isNote : Bool
  parentID : Option Nat
  noteIDs : List Nat
  pageID : Option String
deriving DecidableEq, Repr

/-- Observable calls made by the sync job to its external collaborators,
recorded in order. -/
inductive Event where
  | resolveItem (itemID : Nat) : Event
  | progressConstruct (total : Nat) : Event
  | retrieveDatabaseCall (databaseID : String) : Event
  | updateText (step : Nat) : Event
  | updateProgress (step : Nat) : Event
  | setZoteroNote (itemID : Nat) (text : String) : Event
  | updatePage (pageID : String) (props : Props) : Event
  | createPage (databaseID : String) (props : Props) : Event
  | saveTag (itemID : Nat) : Event
  | saveLink (itemID : Nat) (url : String) : Event
  | progressComplete : Event
  | progressFail (cause : Err) (itemID : Option Nat) : Event
deriving DecidableEq, Repr

/-- Host preference value as returned by `Zotero.Prefs.get`: possibly a
string, possibly some non-string value. -/
inductive PrefValue where
  | str (s : String) : PrefValue
  | nonString : PrefValue
deriving DecidableEq, Repr

/-- The environment of external collaborators: `resolveItem` is
`Zotero.Items.get` on a top-level item id, `resolveParent` the same on a
parent id, `resolveNote` resolves a note id to its `getNote() || ''` content
(`none` when the note item is falsy), `update`/`create` are
`notion.pages.update`/`notion.pages.create`, `retrieveDatabaseResult` the
outcome of `notion.databases.retrieve`, `convertURL` is
`convertWebURLToAppURL` (notion-utils), and `notionDatabaseID` the required
database-id preference. -/
structure Env where
  resolveItem : Nat → Option Item
  resolveParent : Nat → Option Item
  resolveNote : Nat → Option String
  update : String → Props → Except NotionErr PageResponse
  create : String → Props → Except NotionErr PageResponse
  retrieveDatabaseResult : Except NotionErr Unit
  convertURL : String → String
  notionDatabaseID : String

/-- Modelled from the spec: the `APA_STYLE` constant from
`src/content/constants.ts` (not included under `src/`), the fixed default
citation style identifier. Its exact value is irrelevant to the sync job. -/
def APA_STYLE : String := "apa"

/-- `getCitationFormat` (`sync-job.ts` lines 98-104): prefer the host's
`export.quickCopy.setting` preference when it is a non-empty string, else
fall back to `APA_STYLE`. -/
def getCitationFormat (format : PrefValue) : String :=
  match format with
  | PrefValue.str s => if s.isEmpty then APA_STYLE else s
  | PrefValue.nonString => APA_STYLE

/-- The external `buildProperties` collaborator, modelled as an opaque
per-item token: the sync job never inspects the produced property set, it
only forwards it to the Notion client. -/
def buildProperties (item : Item) : Props := item.id

/-- The separator appended after each note body in `syncItemAndNotes`. -/
def noteSeparator : String := "\n---\n"

/-- Tag-stripping automaton modelling `DOMParser`/`textContent` text
extraction: characters inside `<...>` markup are dropped.  `inTag` says
whether the scan currently stands inside a tag. -/
def stripAux (inTag : Bool) : List Char → List Char
  | [] => []
  | c :: rest =>
    if inTag then
      if c = '>' then stripAux false rest else stripAux true rest
    else
      if c = '<' then stripAux true rest else c :: stripAux false rest

/-- Final state of the tag automaton after scanning a character list. -/
def tagState (inTag : Bool) : List Char → Bool
  | [] => inTag
  | c :: rest =>
    if inTag then
      if c = '>' then tagState false rest else tagState true rest
    else
      if c = '<' then tagState true rest else tagState false rest

/-- `SyncJob.sanitize` (`sync-job.ts` lines 153-156): parse the accumulated
HTML and keep only its text content.  The external DOM parser's
`doc.body.textContent` is modelled as markup-tag removal. -/
def sanitize (html : String) : String :=
  String.mk (stripAux false html.data)

/-- The note-concatenation loop of `SyncJob.syncItemAndNotes`
(`sync-job.ts` lines 160-167): for each note id, when `Zotero.Items.get`
yields a note item, append its content followed by the separator; an
unresolved note id contributes nothing. -/
def notesText (env : Env) : List Nat → String
  | [] => ""
  | nid :: rest =>
    match env.resolveNote nid with
    | some content => content ++ (noteSeparator ++ notesText env rest)
    | none => notesText env rest

/-- `SyncJob.saveItemToDatabase` (`sync-job.ts` lines 215-241): look up the
stored page id; with a page id, try `pages.update`, rethrowing any error
whose code is not `ObjectNotFound`; otherwise (no page id, or update failed
with `ObjectNotFound`) call `pages.create` under the configured database
parent. -/
def saveItemToDatabase (env : Env) (databaseID : String) (item : Item) :
    Except Err PageResponse × List Event :=
  let props := buildProperties item
  match item.pageID with
  | some pid =>
    match env.update pid props with
    | Except.ok resp => (Except.ok resp, [Event.updatePage pid props])
    | Except.error e =>
      if e = NotionErr.objectNotFound then
        match env.create databaseID props with
        | Except.ok resp =>
          (Except.ok resp, [Event.updatePage pid props, Event.createPage databaseID props])
        | Except.error e2 =>
          (Except.error (Err.notionErr e2),
            [Event.updatePage pid props, Event.createPage databaseID props])
      else
        (Except.error (Err.notionErr e), [Event.updatePage pid props])
  | none =>
    match env.create databaseID props with
    | Except.ok resp => (Except.ok resp, [Event.createPage databaseID props])
    | Except.error e => (Except.error (Err.notionErr e), [Event.createPage databaseID props])

/-- The error message thrown by `SyncJob.syncRegularItem` when the upsert
response is not a full page. -/
def linkAttachmentErrorMessage : String :=
  "Failed to create Notion link attachment. " ++
    "This will result in duplicate Notion pages. " ++
    "Please ensure that the \"read content\" capability is enabled " ++
    "for the Notero integration at www.notion.so/my-integrations."

/-- `SyncJob.syncRegularItem` (`sync-job.ts` lines 197-213): upsert the page,
save the synced tag, then either attach the converted app-URL back-link (full
page) or throw the read-content error (restricted response). -/
def syncRegularItem (env : Env) (databaseID : String) (item : Item) :
    Except Err Unit × List Event :=
  match saveItemToDatabase env databaseID item with
  | (Except.error e, tr) => (Except.error e, tr)
  | (Except.ok resp, tr) =>
    match resp with
    | PageResponse.fullPage url =>
      (Except.ok (),
        tr ++ [Event.saveTag item.id, Event.saveLink item.id (env.convertURL url)])
    | PageResponse.restricted =>
      (Except.error (Err.strError linkAttachmentErrorMessage),
        tr ++ [Event.saveTag item.id])

/-- `SyncJob.syncItemAndNotes` (`sync-job.ts` lines 159-170): concatenate the
attached notes' content, sanitize it, store it on the item's transient
`zotero_note` field, then sync the item as a regular item. -/
def syncItemAndNotes (env : Env) (databaseID : String) (item : Item) :
    Except Err Unit × List Event :=
  let text := sanitize (notesText env item.noteIDs)
  match syncRegularItem env databaseID item with
  | (r, tr) => (r, Event.setZoteroNote item.id text :: tr)

/-- The body of the `perform` loop for one item (`sync-job.ts` lines
181-188): a note item redirects to its resolved parent (and is silently
skipped when the parent does not resolve); a regular item is synced
directly. -/
def processItem (env : Env) (databaseID : String) (item : Item) :
    Except Err Unit × List Event :=
  if item.isNote then
    match item.parentID.bind env.resolveParent with
    | some parent => syncItemAndNotes env databaseID parent
    | none => (Except.ok (), [])
  else
    syncItemAndNotes env databaseID item

/-- The iteration of `SyncJob.perform` (`sync-job.ts` lines 173-195) from a
given zero-based index: report the 1-based step, process the item, wrap any
error into an `ItemSyncError` for the current item (aborting the batch), and
report progress after a successful item. -/
def performLoop (env : Env) (databaseID : String) :
    List Item → Nat → Except Err Unit × List Event
  | [], _ => (Except.ok (), [])
  | item :: rest, index =>
    match processItem env databaseID item with
    | (Except.error e, tr) =>
      (Except.error (Err.itemSync e item.id), Event.updateText (index + 1) :: tr)
    | (Except.ok _, tr) =>
      match performLoop env databaseID rest (index + 1) with
      | (r2, tr2) =>
        (r2, Event.updateText (index + 1) :: (tr ++ Event.updateProgress (index + 1) :: tr2))

/-- `SyncJob.perform`: iterate over all items starting at index 0. -/
def perform (env : Env) (databaseID : String) (items : List Item) :
    Except Err Unit × List Event :=
  performLoop env databaseID items 0

/-- The top-level `catch` of `performSyncJob` (`sync-job.ts` lines 53-68):
an `ItemSyncError` is unwrapped into its cause and failing item before the
failure is reported to the progress window. -/
def failureEvent : Err → Event
  | Err.itemSync cause itemID => Event.progressFail cause (some itemID)
  | e => Event.progressFail e none

/-- `performSyncJob` (`sync-job.ts` lines 38-69): resolve the item ids,
return immediately when none resolve, else construct the progress window,
retrieve the database schema, run the batch, and report completion or the
(unwrapped) first failure. -/
def performSyncJob (env : Env) (itemIDs : List Nat) : List Event :=
  let rTrace := itemIDs.map Event.resolveItem
  let items := itemIDs.filterMap env.resolveItem
  if items.isEmpty then rTrace
  else
    rTrace ++ (Event.progressConstruct items.length ::
      Event.retrieveDatabaseCall env.notionDatabaseID ::
      match env.retrieveDatabaseResult with
      | Except.error e => [failureEvent (Err.notionErr e)]
      | Except.ok _ =>
        match perform env env.notionDatabaseID items with
        | (Except.ok _, tr) => tr ++ [Event.progressComplete]
        | (Except.error e, tr) => tr ++ [failureEvent e])

/-- The item ids whose `zotero_note` field is assigned in a trace: one entry
per sync of an item through `syncItemAndNotes`, in order. -/
def syncTargets (tr : List Event) : List Nat :=
  tr.filterMap fun e =>
    match e with
    | Event.setZoteroNote i _ => some i
    | _ => none

/-- The text `syncItemAndNotes` would store as the claim reads: each resolved
note's content individually HTML-stripped, concatenated in order with the
separator strictly between notes. -/
def joinBetween : List String → String
  | [] => ""
  | [t] => t
  | t :: u :: rest => t ++ (noteSeparator ++ joinBetween (u :: rest))

/-- The stored note text as claimed: stripped note contents with the
separator only between consecutive notes. -/
def specNotesTextClaim (env : Env) (ids : List Nat) : String :=
  joinBetween ((ids.filterMap env.resolveNote).map sanitize)

/-- The amended form of the stored note text: each resolved note's stripped
content followed by the separator (a trailing separator included). -/
def strippedNotesText (env : Env) : List Nat → String
  | [] => ""
  | nid :: rest =>
    match env.resolveNote nid with
    | some content => sanitize content ++ (noteSeparator ++ strippedNotesText env rest)
    | none => strippedNotesText env rest

/-- Sample environment: every remote call succeeds and returns a full page. -/
def envFull : Env where
  resolveItem := fun _ => none
  resolveParent := fun _ => none
  resolveNote := fun _ => none
  update := fun _ _ => Except.ok (PageResponse.fullPage "https://www.notion.so/abc")
  create := fun _ _ => Except.ok (PageResponse.fullPage "https://www.notion.so/abc")
  retrieveDatabaseResult := Except.ok ()
  convertURL := fun u => u
  notionDatabaseID := "db"

/-- Sample environment: page updates fail with `ObjectNotFound`. -/
def envNotFound : Env :=
  { envFull with update := fun _ _ => Except.error NotionErr.objectNotFound }

/-- Sample environment: page updates fail with an unrecognized error code. -/
def envRateLimited : Env :=
  { envFull with update := fun _ _ => Except.error (NotionErr.otherCode "rate_limited") }

/-- Sample environment: remote calls succeed but return restricted responses. -/
def envRestricted : Env :=
  { envFull with
    update := fun _ _ => Except.ok PageResponse.restricted
    create := fun _ _ => Except.ok PageResponse.restricted }

/-- Sample environment: parent id 5 resolves to `itemNoPage`. -/
def envParent : Env :=
  { envFull with resolveParent := fun n => if n = 5 then some ⟨2, false, none, [], none⟩ else none }

/-- Sample environment: every note id resolves to the plain text `hello`. -/
def envHello : Env :=
  { envFull with resolveNote := fun _ => some "hello" }

/-- Sample environment: every note id resolves to an HTML note body. -/
def envHTML : Env :=
  { envFull with resolveNote := fun _ => some "<p>hi</p>" }

/-- Sample regular item with a stored Notion page id. -/
def itemWithPage : Item := ⟨1, false, none, [], some "p"⟩

/-- Sample regular item with no stored Notion page id and no notes. -/
def itemNoPage : Item := ⟨2, false, none, [], none⟩

/-- Sample note item whose parent id is 5. -/
def noteItem : Item := ⟨3, true, some 5, [], none⟩

/-- Sample note item whose parent id does not resolve. -/
def orphanNote : Item := ⟨6, true, some 9, [], none⟩

/-- Sample regular item with one attached note (id 0). -/
def itemOneNote : Item := ⟨7, false, none, [0], none⟩

theorem stripAux_append (xs ys : List Char) :
    ∀ b, stripAux b (xs ++ ys) = stripAux b xs ++ stripAux (tagState b xs) ys := by
  induction xs with
  | nil => intro b; rfl
  | cons c rest ih =>
    intro b
    cases b with
    | false =>
      by_cases hc : c = '<' <;> simp [stripAux, tagState, hc, ih]
    | true =>
      by_cases hc : c = '>' <;> simp [stripAux, tagState, hc, ih]

theorem sanitize_append (a b : String) (h : tagState false a.data = false) :
    sanitize (a ++ b) = sanitize a ++ sanitize b := by
  show String.mk (stripAux false (a ++ b).data) = _
  rw [String.data_append, stripAux_append, h]
  rfl

theorem tagState_noteSeparator : tagState false noteSeparator.data = false := by decide

theorem sanitize_noteSeparator : sanitize noteSeparator = noteSeparator := by decide


/-- Claim C1: for every item with a previously stored remote page id, the
upsert first issues an update call with that id, and it issues exactly one
create call under the configured database parent if and only if the update
fails with the object-not-found error code. -/
theorem claim_C1 (env : Env) (databaseID : String) (item : Item) (pid : String)
    (h : item.pageID = some pid) :
    (saveItemToDatabase env databaseID item).2.head? =
      some (Event.updatePage pid (buildProperties item)) ∧
    (saveItemToDatabase env databaseID item).2.count
        (Event.createPage databaseID (buildProperties item)) =
      (if env.update pid (buildProperties item) = Except.error NotionErr.objectNotFound
        then 1 else 0) := by
  cases hu : env.update pid (buildProperties item) with
  | ok resp =>
    simp [saveItemToDatabase, h, hu, List.count_singleton]
  | error e =>
    by_cases he : e = NotionErr.objectNotFound
    · subst he
      cases hc : env.create databaseID (buildProperties item) <;>
        simp [saveItemToDatabase, h, hu, hc, List.count_cons, List.count_singleton]
    · simp [saveItemToDatabase, h, hu, he, List.count_singleton]

theorem claim_C1_witness :
    (saveItemToDatabase envNotFound "db" itemWithPage).2.head? =
      some (Event.updatePage "p" (buildProperties itemWithPage)) ∧
    (saveItemToDatabase envNotFound "db" itemWithPage).2.count
        (Event.createPage "db" (buildProperties itemWithPage)) =
      (if envNotFound.update "p" (buildProperties itemWithPage) =
          Except.error NotionErr.objectNotFound then 1 else 0) :=
  claim_C1 envNotFound "db" itemWithPage "p" rfl

/-- Claim C6: for an empty input set of item ids, `performSyncJob` returns
immediately with an empty trace: no item resolution, no network call, no
progress-window construction, no side effect at all. -/
theorem claim_C6 (env : Env) : performSyncJob env [] = [] := rfl

/-- Claim C7: for every item with a stored page id whose update call fails
with any error other than object-not-found, that error propagates unchanged
from the upsert, and no create call is issued. -/
theorem claim_C7 (env : Env) (databaseID : String) (item : Item) (pid : String)
    (e : NotionErr) (h1 : item.pageID = some pid)
    (h2 : env.update pid (buildProperties item) = Except.error e)
    (h3 : e ≠ NotionErr.objectNotFound) :
    saveItemToDatabase env databaseID item =
      (Except.error (Err.notionErr e), [Event.updatePage pid (buildProperties item)]) := by
  simp [saveItemToDatabase, h1, h2, h3]

theorem claim_C7_witness :
    saveItemToDatabase envRateLimited "db" itemWithPage =
      (Except.error (Err.notionErr (NotionErr.otherCode "rate_limited")),
        [Event.updatePage "p" (buildProperties itemWithPage)]) :=
  claim_C7 envRateLimited "db" itemWithPage "p" (NotionErr.otherCode "rate_limited")
    rfl rfl (by decide)

/-- Claim C8: the citation format equals the quick-copy export-format
preference whenever that preference is a non-empty string, and equals the
fixed default style identifier otherwise. -/
theorem claim_C8 (v : PrefValue) :
    (∀ s, v = PrefValue.str s → s ≠ "" → getCitationFormat v = s) ∧
    ((∀ s, v = PrefValue.str s → s = "") → getCitationFormat v = APA_STYLE) := by
  constructor
  · rintro s rfl hs
    simp [getCitationFormat, String.isEmpty_iff, hs]
  · intro hv
    cases v with
    | str s =>
      have : s = "" := hv s rfl
      subst this
      rfl
    | nonString => rfl

theorem claim_C8_witness :
    getCitationFormat (PrefValue.str "chicago") = "chicago" ∧
    getCitationFormat (PrefValue.str "") = APA_STYLE :=
  ⟨(claim_C8 (PrefValue.str "chicago")).1 "chicago" rfl (by decide),
   (claim_C8 (PrefValue.str "")).2 (fun s h => by cases h; rfl)⟩

theorem mem_upsert_events (env : Env) (databaseID : String) (item : Item) :
    ∀ e ∈ (saveItemToDatabase env databaseID item).2,
      (∃ p pr, e = Event.updatePage p pr) ∨ ∃ d pr, e = Event.createPage d pr := by
  intro e he
  cases hp : item.pageID with
  | none =>
    cases hc : env.create databaseID (buildProperties item) <;>
      · simp [saveItemToDatabase, hp, hc] at he
        exact Or.inr ⟨_, _, he⟩
  | some pid =>
    cases hu : env.update pid (buildProperties item) with
    | ok r =>
      simp [saveItemToDatabase, hp, hu] at he
      exact Or.inl ⟨_, _, he⟩
    | error er =>
      by_cases her : er = NotionErr.objectNotFound
      · subst her
        cases hc : env.create databaseID (buildProperties item) <;>
          · simp [saveItemToDatabase, hp, hu, hc] at he
            rcases he with he | he
            · exact Or.inl ⟨_, _, he⟩
            · exact Or.inr ⟨_, _, he⟩
      · simp [saveItemToDatabase, hp, hu, her] at he
        exact Or.inl ⟨_, _, he⟩

theorem saveLink_not_mem_upsert (env : Env) (databaseID : String) (item : Item)
    (i : Nat) (u : String) :
    Event.saveLink i u ∉ (saveItemToDatabase env databaseID item).2 := by
  intro h
  rcases mem_upsert_events env databaseID item _ h with ⟨p, pr, he⟩ | ⟨d, pr, he⟩ <;>
    exact Event.noConfusion he

theorem setZoteroNote_not_mem_upsert (env : Env) (databaseID : String) (item : Item)
    (i : Nat) (t : String) :
    Event.setZoteroNote i t ∉ (saveItemToDatabase env databaseID item).2 := by
  intro h
  rcases mem_upsert_events env databaseID item _ h with ⟨p, pr, he⟩ | ⟨d, pr, he⟩ <;>
    exact Event.noConfusion he

theorem syncRegularItem_trace (env : Env) (databaseID : String) (item : Item) :
    (syncRegularItem env databaseID item).2 = (saveItemToDatabase env databaseID item).2 ∨
    (syncRegularItem env databaseID item).2 =
      (saveItemToDatabase env databaseID item).2 ++ [Event.saveTag item.id] ∨
    ∃ url, (syncRegularItem env databaseID item).2 =
      (saveItemToDatabase env databaseID item).2 ++
        [Event.saveTag item.id, Event.saveLink item.id (env.convertURL url)] := by
  rcases hs : saveItemToDatabase env databaseID item with ⟨r, tr⟩
  cases r with
  | error e => left; simp [syncRegularItem, hs]
  | ok resp =>
    cases resp with
    | restricted => right; left; simp [syncRegularItem, hs]
    | fullPage url => right; right; exact ⟨url, by simp [syncRegularItem, hs]⟩

theorem setZoteroNote_not_mem_syncRegular (env : Env) (databaseID : String) (item : Item)
    (i : Nat) (t : String) :
    Event.setZoteroNote i t ∉ (syncRegularItem env databaseID item).2 := by
  intro hm
  have notmem := setZoteroNote_not_mem_upsert env databaseID item i t
  rcases syncRegularItem_trace env databaseID item with h | h | ⟨url, h⟩ <;> rw [h] at hm
  · exact notmem hm
  · simp at hm
    exact notmem hm
  · simp at hm
    exact notmem hm

theorem syncTargets_syncRegular (env : Env) (databaseID : String) (item : Item) :
    syncTargets (syncRegularItem env databaseID item).2 = [] := by
  simp only [syncTargets, List.filterMap_eq_nil_iff]
  intro e he
  have hns : ∀ e ∈ (saveItemToDatabase env databaseID item).2,
      (match e with
        | Event.setZoteroNote i _ => some i
        | _ => none) = (none : Option Nat) := by
    intro e he
    rcases mem_upsert_events env databaseID item e he with ⟨p, pr, rfl⟩ | ⟨d, pr, rfl⟩ <;> rfl
  rcases syncRegularItem_trace env databaseID item with h | h | ⟨url, h⟩ <;> rw [h] at he
  · exact hns e he
  · rcases List.mem_append.1 he with he | he
    · exact hns e he
    · simp at he
      subst he
      rfl
  · rcases List.mem_append.1 he with he | he
    · exact hns e he
    · rcases List.mem_cons.1 he with he | he
      · subst he
        rfl
      · simp at he
        subst he
        rfl

theorem syncTargets_syncItemAndNotes (env : Env) (databaseID : String) (item : Item) :
    syncTargets (syncItemAndNotes env databaseID item).2 = [item.id] := by
  have h2 : (syncItemAndNotes env databaseID item).2 =
      Event.setZoteroNote item.id (sanitize (notesText env item.noteIDs)) ::
        (syncRegularItem env databaseID item).2 := rfl
  have h3 := syncTargets_syncRegular env databaseID item
  simp only [syncTargets] at h3 ⊢
  rw [h2, List.filterMap_cons]
  simp [h3]

/-- Claim C4: for every note item, if its parent resolves then exactly the
parent is synced (one sync of the parent, none of the note itself), and if
the parent does not resolve then no sync call occurs and no error is raised
for that entry. -/
theorem claim_C4 (env : Env) (databaseID : String) (item : Item)
    (hnote : item.isNote = true) :
    (∀ parent, item.parentID.bind env.resolveParent = some parent →
      processItem env databaseID item = syncItemAndNotes env databaseID parent ∧
      syncTargets (processItem env databaseID item).2 = [parent.id]) ∧
    (item.parentID.bind env.resolveParent = none →
      processItem env databaseID item = (Except.ok (), [])) := by
  constructor
  · intro parent hp
    have heq : processItem env databaseID item = syncItemAndNotes env databaseID parent := by
      simp [processItem, hnote, hp]
    exact ⟨heq, by rw [heq]; exact syncTargets_syncItemAndNotes env databaseID parent⟩
  · intro hp
    simp [processItem, hnote, hp]

theorem claim_C4_witness :
    (processItem envParent "db" noteItem =
        syncItemAndNotes envParent "db" ⟨2, false, none, [], none⟩ ∧
      syncTargets (processItem envParent "db" noteItem).2 =
        [(⟨2, false, none, [], none⟩ : Item).id]) ∧
    processItem envParent "db" orphanNote = (Except.ok (), []) :=
  ⟨(claim_C4 envParent "db" noteItem rfl).1 ⟨2, false, none, [], none⟩ (by decide),
   (claim_C4 envParent "db" orphanNote rfl).2 (by decide)⟩

set_option maxRecDepth 16384 in
/-- Claim C3: for every item whose upsert returns a response that is not a
full page, `syncRegularItem` raises the error instructing the user to enable
the read-content capability and saves no back-link attachment; for every
full-page response it saves a back-link attachment with the converted app
URL. -/
theorem claim_C3 (env : Env) (databaseID : String) (item : Item) :
    ((saveItemToDatabase env databaseID item).1 = Except.ok PageResponse.restricted →
      (syncRegularItem env databaseID item).1 =
        Except.error (Err.strError linkAttachmentErrorMessage) ∧
      ∀ u, Event.saveLink item.id u ∉ (syncRegularItem env databaseID item).2) ∧
    (∀ url,
      (saveItemToDatabase env databaseID item).1 = Except.ok (PageResponse.fullPage url) →
      (syncRegularItem env databaseID item).1 = Except.ok () ∧
      Event.saveLink item.id (env.convertURL url) ∈
        (syncRegularItem env databaseID item).2) ∧
    List.IsInfix "read content".data linkAttachmentErrorMessage.data := by
  refine ⟨?_, ?_, by decide⟩
  · intro h
    obtain ⟨tr, hs⟩ : ∃ t, saveItemToDatabase env databaseID item =
        (Except.ok PageResponse.restricted, t) := ⟨_, Prod.ext h rfl⟩
    have htr : (saveItemToDatabase env databaseID item).2 = tr := by rw [hs]
    refine ⟨by simp [syncRegularItem, hs], ?_⟩
    intro u hm
    rw [show (syncRegularItem env databaseID item).2 = tr ++ [Event.saveTag item.id] from
      by simp [syncRegularItem, hs]] at hm
    simp at hm
    exact saveLink_not_mem_upsert env databaseID item item.id u (by rw [htr]; exact hm)
  · intro url h
    obtain ⟨tr, hs⟩ : ∃ t, saveItemToDatabase env databaseID item =
        (Except.ok (PageResponse.fullPage url), t) := ⟨_, Prod.ext h rfl⟩
    refine ⟨by simp [syncRegularItem, hs], ?_⟩
    rw [show (syncRegularItem env databaseID item).2 =
        tr ++ [Event.saveTag item.id, Event.saveLink item.id (env.convertURL url)] from
      by simp [syncRegularItem, hs]]
    simp

theorem claim_C3_witness :
    ((syncRegularItem envRestricted "db" itemNoPage).1 =
        Except.error (Err.strError linkAttachmentErrorMessage) ∧
      ∀ u, Event.saveLink itemNoPage.id u ∉ (syncRegularItem envRestricted "db" itemNoPage).2) ∧
    ((syncRegularItem envFull "db" itemNoPage).1 = Except.ok () ∧
      Event.saveLink itemNoPage.id (envFull.convertURL "https://www.notion.so/abc") ∈
        (syncRegularItem envFull "db" itemNoPage).2) :=
  ⟨(claim_C3 envRestricted "db" itemNoPage).1 (by decide),
   ((claim_C3 envFull "db" itemNoPage).2.1 "https://www.notion.so/abc" (by decide))⟩

/-- Claim C9: for every item whose upsert succeeds with a non-full-page
response, the synced tag has already been saved before the read-capability
error is raised, so the tag write persists despite the error. -/
theorem claim_C9 (env : Env) (databaseID : String) (item : Item)
    (h : (saveItemToDatabase env databaseID item).1 = Except.ok PageResponse.restricted) :
    (syncRegularItem env databaseID item).1 =
      Except.error (Err.strError linkAttachmentErrorMessage) ∧
    (syncRegularItem env databaseID item).2 =
      (saveItemToDatabase env databaseID item).2 ++ [Event.saveTag item.id] := by
  obtain ⟨tr, hs⟩ : ∃ t, saveItemToDatabase env databaseID item =
      (Except.ok PageResponse.restricted, t) := ⟨_, Prod.ext h rfl⟩
  constructor
  · simp [syncRegularItem, hs]
  · rw [show (saveItemToDatabase env databaseID item).2 = tr from by rw [hs]]
    simp [syncRegularItem, hs]

theorem claim_C9_witness :
    (syncRegularItem envRestricted "db" itemNoPage).1 =
      Except.error (Err.strError linkAttachmentErrorMessage) ∧
    (syncRegularItem envRestricted "db" itemNoPage).2 =
      (saveItemToDatabase envRestricted "db" itemNoPage).2 ++
        [Event.saveTag itemNoPage.id] :=
  claim_C9 envRestricted "db" itemNoPage (by decide)

theorem sanitize_notesText (env : Env) (ids : List Nat)
    (h : ∀ c ∈ ids.filterMap env.resolveNote, tagState false c.data = false) :
    sanitize (notesText env ids) = strippedNotesText env ids := by
  induction ids with
  | nil => rfl
  | cons nid rest ih =>
    cases hr : env.resolveNote nid with
    | none =>
      have h' : ∀ c ∈ rest.filterMap env.resolveNote, tagState false c.data = false := by
        intro c hc
        exact h c (by simp [List.filterMap_cons, hr, hc])
      simp [notesText, strippedNotesText, hr, ih h']
    | some content =>
      have hcb : tagState false content.data = false :=
        h content (by simp [List.filterMap_cons, hr])
      have h' : ∀ c ∈ rest.filterMap env.resolveNote, tagState false c.data = false := by
        intro c hc
        refine h c ?_
        rw [List.filterMap_cons, hr]
        exact List.mem_cons_of_mem content hc
      calc sanitize (notesText env (nid :: rest))
          = sanitize (content ++ (noteSeparator ++ notesText env rest)) := by
            simp [notesText, hr]
        _ = sanitize content ++ sanitize (noteSeparator ++ notesText env rest) :=
            sanitize_append _ _ hcb
        _ = sanitize content ++ (sanitize noteSeparator ++ sanitize (notesText env rest)) := by
            rw [sanitize_append _ _ tagState_noteSeparator]
        _ = sanitize content ++ (noteSeparator ++ strippedNotesText env rest) := by
            rw [sanitize_noteSeparator, ih h']
        _ = strippedNotesText env (nid :: rest) := by simp [strippedNotesText, hr]

/-- Claim C5 counterexample: for an item with a single attached note whose
content is the plain text `hello`, the code stores `hello\n---\n` (a trailing
separator after the last note), while the claim as stated — the notes'
stripped contents with the separator only between notes — predicts `hello`. -/
theorem claim_C5_counterexample :
    (syncItemAndNotes envHello "db" itemOneNote).2.head? =
      some (Event.setZoteroNote itemOneNote.id "hello\n---\n") ∧
    specNotesTextClaim envHello itemOneNote.noteIDs = "hello" ∧
    (syncItemAndNotes envHello "db" itemOneNote).2.head? ≠
      some (Event.setZoteroNote itemOneNote.id
        (specNotesTextClaim envHello itemOneNote.noteIDs)) := by
  refine ⟨by decide, by decide, by decide⟩

/-- Claim C5 (amended): for every synced item whose resolvable notes are
HTML-balanced (the scan of each note body ends outside a tag), the text
stored on the transient note field equals the HTML-stripped plain-text
content of the resolvable attached notes in note-listing order, each
followed by the literal separator sequence (a trailing separator included). -/
theorem claim_C5_amended (env : Env) (databaseID : String) (item : Item)
    (h : ∀ c ∈ item.noteIDs.filterMap env.resolveNote, tagState false c.data = false) :
    (syncItemAndNotes env databaseID item).2.head? =
      some (Event.setZoteroNote item.id (strippedNotesText env item.noteIDs)) := by
  have h2 : (syncItemAndNotes env databaseID item).2.head? =
      some (Event.setZoteroNote item.id (sanitize (notesText env item.noteIDs))) := rfl
  rw [h2, sanitize_notesText env item.noteIDs h]

theorem claim_C5_witness :
    (syncItemAndNotes envHTML "db" itemOneNote).2.head? =
      some (Event.setZoteroNote itemOneNote.id
        (strippedNotesText envHTML itemOneNote.noteIDs)) ∧
    strippedNotesText envHTML itemOneNote.noteIDs = "hi\n---\n" :=
  ⟨claim_C5_amended envHTML "db" itemOneNote (by decide), by decide⟩

theorem notesText_filter (env : Env) (ids : List Nat) :
    notesText env ids =
      notesText env (ids.filter fun nid => (env.resolveNote nid).isSome) := by
  induction ids with
  | nil => rfl
  | cons nid rest ih =>
    cases hr : env.resolveNote nid with
    | none => simp [notesText, List.filter_cons, hr, ih]
    | some content => simp [notesText, List.filter_cons, hr, ih]

/-- Claim C10: for every regular item that is synced, the transient note
field is assigned unconditionally before the upsert; with zero attached
notes it is assigned the empty string, and a note id that fails to resolve
contributes neither text nor a separator. -/
theorem claim_C10 (env : Env) (databaseID : String) (item : Item) :
    (syncItemAndNotes env databaseID item).2 =
      Event.setZoteroNote item.id (sanitize (notesText env item.noteIDs)) ::
        (syncRegularItem env databaseID item).2 ∧
    (item.noteIDs = [] → sanitize (notesText env item.noteIDs) = "") ∧
    notesText env item.noteIDs =
      notesText env (item.noteIDs.filter fun nid => (env.resolveNote nid).isSome) := by
  refine ⟨rfl, ?_, notesText_filter env item.noteIDs⟩
  intro h
  rw [h]
  rfl

theorem claim_C10_witness :
    (syncItemAndNotes envFull "db" itemNoPage).2 =
      Event.setZoteroNote itemNoPage.id (sanitize (notesText envFull itemNoPage.noteIDs)) ::
        (syncRegularItem envFull "db" itemNoPage).2 ∧
    sanitize (notesText envFull itemNoPage.noteIDs) = "" :=
  ⟨(claim_C10 envFull "db" itemNoPage).1, (claim_C10 envFull "db" itemNoPage).2.1 rfl⟩

/-- Claim C2: for a batch [A, B, C] where processing B fails, `perform`
processes A fully (including its progress update), wraps B's error into an
`ItemSyncError` carrying the original cause and B, aborts so that C
contributes nothing to the trace, and the top-level handler reports the
failure naming B. -/
theorem claim_C2 (env : Env) (databaseID : String) (A B C : Item) (e : Err)
    (hA : (processItem env databaseID A).1 = Except.ok ())
    (hB : (processItem env databaseID B).1 = Except.error e) :
    perform env databaseID [A, B, C] =
      (Except.error (Err.itemSync e B.id),
        Event.updateText 1 :: ((processItem env databaseID A).2 ++
          Event.updateProgress 1 :: Event.updateText 2 ::
            (processItem env databaseID B).2)) ∧
    failureEvent (Err.itemSync e B.id) = Event.progressFail e (some B.id) := by
  refine ⟨?_, rfl⟩
  obtain ⟨trA, hA'⟩ : ∃ t, processItem env databaseID A = (Except.ok (), t) :=
    ⟨_, Prod.ext hA rfl⟩
  obtain ⟨trB, hB'⟩ : ∃ t, processItem env databaseID B = (Except.error e, t) :=
    ⟨_, Prod.ext hB rfl⟩
  rw [show (processItem env databaseID A).2 = trA from by rw [hA'],
      show (processItem env databaseID B).2 = trB from by rw [hB']]
  simp [perform, performLoop, hA', hB']

theorem claim_C2_witness :
    perform envRateLimited "db" [itemNoPage, itemWithPage, itemNoPage] =
      (Except.error (Err.itemSync
          (Err.notionErr (NotionErr.otherCode "rate_limited")) itemWithPage.id),
        Event.updateText 1 :: ((processItem envRateLimited "db" itemNoPage).2 ++
          Event.updateProgress 1 :: Event.updateText 2 ::
            (processItem envRateLimited "db" itemWithPage).2)) ∧
    failureEvent (Err.itemSync
        (Err.notionErr (NotionErr.otherCode "rate_limited")) itemWithPage.id) =
      Event.progressFail (Err.notionErr (NotionErr.otherCode "rate_limited"))
        (some itemWithPage.id) :=
  claim_C2 envRateLimited "db" itemNoPage itemWithPage itemNoPage
    (Err.notionErr (NotionErr.otherCode "rate_limited")) (by decide) (by decide)
